import Mathlib

/-!
Verification of the solo-leveling gamification engine.

This file gives a shallow embedding, in Lean 4, of the parts of the engine
that the verified properties talk about:

* `src/core/player.py` — `PlayerStats.apply_modifier`, `exp_for_level`,
  `PlayerManager.gain_exp` / `_level_up` / `apply_buff` / `remove_buff`;
* `server/system/buff_engine.py` — the static buff catalog
  `BUFF_DEFINITIONS` and `BuffEngine.activate_buff` / `deactivate_buff`;
* `src/system/penalty.py` — `PENALTY_LEVELS` and
  `PenaltySystem.check_daily_completion`;
* `src/system/quest_engine.py` + `src/storage/database.py` — quest records,
  `generate_daily_quests`, `complete_quest`;
* `src/cognition/pattern_detector.py` — `PatternDetector.detect`;
* `server/system/hidden_quests.py` — the hidden-quest catalog and the
  fire-once / cooldown skip logic of `HiddenQuestDetector.check_triggers`;
* `server/system/shadow_army.py` — shadow status transitions and the
  execution counters of `execute_shadow` / `report_execution_result`.

Conventions. Python `int` is modelled as `Int` (or `Nat` where the source
value is a count that can never go below zero), Python `float` as `ℚ`
(all float constants in the sources are small decimals), Python `str` as
`String`, and dictionaries holding heterogeneous effect maps as explicit
structures.  Wall-clock values are abstracted to the components the code
actually inspects.  Purely cosmetic fields (names, descriptions, icons,
notification payloads) and event emission are elided: they never feed back
into the state examined here.
-/

namespace SoloLeveling

/-- The five stat gauges of `PlayerStats` (src/core/player.py). -/
inductive Stat where
  | focus
  | productivity
  | consistency
  | creativity
  | wellness
deriving DecidableEq, Repr

/-- The stat-name list used by `_level_up` when granting +1 to every gauge. -/
def allStats : List Stat :=
  [.focus, .productivity, .consistency, .creativity, .wellness]

/-- `PlayerStats.apply_modifier`: write `current + value` into the gauge,
clamped into [0, 100].  A gauge assignment is modelled functionally. -/
def applyModifier (stats : Stat → Int) (s : Stat) (v : Int) : Stat → Int :=
  fun t => if t = s then max 0 (min 100 (stats s + v)) else stats t

/-- Apply a list of (stat, delta) pairs in order through `applyModifier`,
as the loops in `apply_buff`, `remove_buff` and the penalty system do. -/
def applyDeltas (deltas : List (Stat × Int)) (stats : Stat → Int) : Stat → Int :=
  deltas.foldl (fun acc sv => applyModifier acc sv.1 sv.2) stats

/-- An `ActiveBuff` (src/core/player.py).  The `effects` dict is split into
its stat-delta entries and the reserved `exp_multiplier` key; `activated_at`
and `expires_at` timestamps are elided (no verified property reads them). -/
structure ActiveBuff where
  id : String
  statDeltas : List (Stat × Int)
  expMultiplier : Option ℚ
  isDebuff : Bool
deriving DecidableEq, Repr

/-- The player ledger (`Player` in src/core/player.py). Titles and the
creation timestamp are elided; they never feed back into stats or exp. -/
structure Player where
  level : Nat
  exp : Int
  stats : Stat → Int
  activeBuffs : List ActiveBuff
  totalQuestsCompleted : Nat

/-- The level table `LEVEL_TABLE` (levels 1–10). -/
def LEVEL_TABLE : List (Nat × Int) :=
  [(1, 100), (2, 200), (3, 400), (4, 700), (5, 1100),
   (6, 1600), (7, 2200), (8, 3000), (9, 4000), (10, 5500)]

/-- `exp_for_level`: table lookup for levels present in `LEVEL_TABLE`,
`5500 + (level - 10) * 1000` otherwise. -/
def expForLevel (level : Nat) : Int :=
  match List.lookup level LEVEL_TABLE with
  | some v => v
  | none => 5500 + ((level : Int) - 10) * 1000

/-- Python `int(x)` on a float: truncation toward zero. -/
def pyInt (q : ℚ) : Int :=
  if 0 ≤ q then q.floor else q.ceil

/-- The multiplier loop at the top of `gain_exp`: the product of the
`exp_multiplier` entries of all active buffs, starting from 1.0. -/
def expMultProduct (buffs : List ActiveBuff) : ℚ :=
  buffs.foldl
    (fun acc b => match b.expMultiplier with
      | some m => acc * m
      | none => acc)
    1

/-- The stat part of `_level_up`: +1 to every gauge through `apply_modifier`. -/
def levelUpStats (stats : Stat → Int) : Stat → Int :=
  allStats.foldl (fun acc s => applyModifier acc s 1) stats

/-- The `while exp >= exp_to_next` cascade of `gain_exp`.  The loop consumes
at least one exp point per round (thresholds are ≥ 100 for every reachable
level), so `fuel` bounds the rounds; callers pass `exp.toNat`, which the
guard `0 < expForLevel level` (true exactly for levels ≥ 1, i.e. for every
reachable player level) keeps sufficient. -/
def levelUpLoop (fuel : Nat) (level : Nat) (exp : Int) (stats : Stat → Int) :
    Nat × Int × (Stat → Int) :=
  match fuel with
  | 0 => (level, exp, stats)
  | fuel + 1 =>
    if expForLevel level ≤ exp ∧ 0 < expForLevel level then
      levelUpLoop fuel (level + 1) (exp - expForLevel level) (levelUpStats stats)
    else (level, exp, stats)

/-- `PlayerManager.gain_exp`: scale by the active exp multipliers, truncate
to int, add, then run the level-up cascade. -/
def gainExp (p : Player) (amount : Int) : Player :=
  let multiplier := expMultProduct p.activeBuffs
  let actualAmount := pyInt ((amount : ℚ) * multiplier)
  let exp1 := p.exp + actualAmount
  let r := levelUpLoop exp1.toNat p.level exp1 p.stats
  { p with level := r.1, exp := r.2.1, stats := r.2.2 }

/-- `PlayerManager.apply_buff`: drop any old buff with the same id (without
reverting its deltas), append the new buff, then apply each stat delta
through the clamped modifier. -/
def applyBuff (p : Player) (buff : ActiveBuff) : Player :=
  let kept := p.activeBuffs.filter (fun b => b.id != buff.id)
  let stats := applyDeltas buff.statDeltas p.stats
  { p with activeBuffs := kept ++ [buff], stats := stats }

/-- `PlayerManager.remove_buff`: drop every buff with the given id; if one
was present (`removed` ends as the last match in the Python loop), apply
the negation of each of its stat deltas through the clamped modifier. -/
def removeBuff (p : Player) (buffId : String) : Player :=
  let kept := p.activeBuffs.filter (fun b => b.id != buffId)
  match (p.activeBuffs.filter (fun b => b.id == buffId)).getLast? with
  | none => { p with activeBuffs := kept }
  | some removed =>
    let stats :=
      removed.statDeltas.foldl (fun acc sv => applyModifier acc sv.1 (-sv.2)) p.stats
    { p with activeBuffs := kept, stats := stats }

/-- One entry of the static buff catalog `BUFF_DEFINITIONS`
(server/system/buff_engine.py). -/
structure BuffDef where
  id : String
  statDeltas : List (Stat × Int)
  expMultiplier : Option ℚ
  isDebuff : Bool
  durationMinutes : Option Nat
deriving DecidableEq, Repr

/-- The static buff catalog `BUFF_DEFINITIONS`, dict order preserved. -/
def buffDefinitions : List BuffDef :=
  [ { id := "focus_zone", statDeltas := [(.focus, 20)],
      expMultiplier := some (3/2), isDebuff := false, durationMinutes := none },
    { id := "creativity_spark", statDeltas := [(.creativity, 25)],
      expMultiplier := some (13/10), isDebuff := false, durationMinutes := none },
    { id := "learning_boost", statDeltas := [(.productivity, 15)],
      expMultiplier := some (6/5), isDebuff := false, durationMinutes := none },
    { id := "early_bird", statDeltas := [(.focus, 10), (.productivity, 10), (.wellness, 5)],
      expMultiplier := none, isDebuff := false, durationMinutes := none },
    { id := "distraction_fog", statDeltas := [(.focus, -15), (.productivity, -10)],
      expMultiplier := none, isDebuff := true, durationMinutes := some 10 },
    { id := "fatigue_warning", statDeltas := [(.focus, -10), (.wellness, -5)],
      expMultiplier := none, isDebuff := true, durationMinutes := some 15 },
    { id := "night_owl", statDeltas := [(.creativity, 10), (.wellness, -10)],
      expMultiplier := none, isDebuff := false, durationMinutes := none },
    { id := "procrastination_curse", statDeltas := [(.productivity, -20), (.focus, -10)],
      expMultiplier := none, isDebuff := true, durationMinutes := some 20 } ]

/-- `BuffEngine.activate_buff`: unknown id → no-op; id already active →
no-op (never double-apply); otherwise build the `ActiveBuff` from the
catalog entry and hand it to `apply_buff`. -/
def activateBuff (p : Player) (buffId : String) : Player :=
  match buffDefinitions.find? (fun d => d.id == buffId) with
  | none => p
  | some d =>
    if p.activeBuffs.any (fun b => b.id == buffId) then p
    else
      applyBuff p
        { id := buffId, statDeltas := d.statDeltas,
          expMultiplier := d.expMultiplier, isDebuff := d.isDebuff }

/-- The default player: level 1, exp 0, all gauges 50, no buffs. -/
def initPlayer : Player :=
  { level := 1, exp := 0, stats := fun _ => 50, activeBuffs := [], totalQuestsCompleted := 0 }

/-! ## Penalty system (src/system/penalty.py) -/

/-- The effect payload of one `PENALTY_LEVELS` rung: experience penalty and
stat penalties.  The debuff id and forced-quest definition are elided (they
are only surfaced to the caller, never applied here). -/
structure PenaltyEffect where
  expPenalty : Int
  statPenalty : List (Stat × Int)
deriving DecidableEq, Repr

/-- The `PENALTY_LEVELS` ladder, keyed by consecutive-failure count. -/
def PENALTY_LEVELS : List (Nat × PenaltyEffect) :=
  [ (1, { expPenalty := 0, statPenalty := [] }),
    (2, { expPenalty := 0, statPenalty := [] }),
    (3, { expPenalty := 50,
          statPenalty := [(.focus, -10), (.productivity, -10), (.wellness, -5)] }),
    (5, { expPenalty := 200,
          statPenalty := [(.focus, -20), (.productivity, -20), (.consistency, -15), (.wellness, -10)] }) ]

/-- The rung-selection loop of `check_daily_completion`: walk the ladder
keys in descending order and take the first rung whose key is ≤ the
consecutive-failure count. -/
def findPenalty (fails : Nat) : Option PenaltyEffect :=
  ([5, 3, 2, 1].find? (fun lv => decide (lv ≤ fails))).bind
    (fun lv => List.lookup lv PENALTY_LEVELS)

/-- The mutable state of `PenaltySystem` plus the player it manages.  The
`_last_check_date` string is abstracted to the per-call flag `newDay` of
`checkDailyCompletion` (the guard `today == self._last_check_date` makes
the call a no-op when the flag is false). -/
structure EngineState where
  player : Player
  consecutiveFails : Nat
  inPenaltyZone : Bool

/-- `PenaltySystem.check_daily_completion`.  On a not-yet-evaluated day:
reset the streak on success; otherwise bump it, pick the ladder rung, floor
the experience penalty at zero and apply the stat penalties through the
clamped modifier. -/
def checkDailyCompletion (st : EngineState) (newDay completedToday : Bool) : EngineState :=
  if !newDay then st
  else if completedToday then
    if 0 < st.consecutiveFails then
      { st with consecutiveFails := 0, inPenaltyZone := false }
    else st
  else
    let fails := st.consecutiveFails + 1
    match findPenalty fails with
    | none => { st with consecutiveFails := fails }
    | some pen =>
      let p := st.player
      let exp := if 0 < pen.expPenalty then max 0 (p.exp - pen.expPenalty) else p.exp
      let stats := applyDeltas pen.statPenalty p.stats
      { player := { p with exp := exp, stats := stats },
        consecutiveFails := fails, inPenaltyZone := true }

/-- One engine-level operation that writes player stats or experience:
experience gain (level-up cascades run inside `gainExp`), buff activation
and deactivation through the buff engine, and the daily penalty check.
Every engine call site of `gain_exp` passes a non-negative reward, so the
amount is a `Nat`. -/
inductive EngineOp where
  | gainExp (amount : Nat)
  | activateBuff (buffId : String)
  | deactivateBuff (buffId : String)
  | checkDaily (newDay : Bool) (completedToday : Bool)

/-- Dispatch one engine operation. -/
def stepEngine (st : EngineState) (op : EngineOp) : EngineState :=
  match op with
  | .gainExp amount => { st with player := gainExp st.player (amount : Int) }
  | .activateBuff buffId => { st with player := activateBuff st.player buffId }
  | .deactivateBuff buffId => { st with player := removeBuff st.player buffId }
  | .checkDaily newDay completedToday => checkDailyCompletion st newDay completedToday

/-- Run a sequence of engine operations. -/
def runEngine (st : EngineState) (ops : List EngineOp) : EngineState :=
  ops.foldl stepEngine st

/-- The boot state: default player, no failure streak. -/
def initEngineState : EngineState :=
  { player := initPlayer, consecutiveFails := 0, inPenaltyZone := false }

/-- Every gauge inside [0, 100]. -/
def statsInRange (stats : Stat → Int) : Prop :=
  ∀ s, 0 ≤ stats s ∧ stats s ≤ 100

/-- Every active buff's experience multiplier (when present) is
non-negative — true of every catalog entry, and needed so `gain_exp`
cannot be handed a sign-flipping multiplier. -/
def buffMultsOk (buffs : List ActiveBuff) : Prop :=
  ∀ b ∈ buffs, ∀ m, b.expMultiplier = some m → 0 ≤ m

/-- The engine invariant on the player ledger. -/
def playerOk (p : Player) : Prop :=
  statsInRange p.stats ∧ 0 ≤ p.exp ∧ buffMultsOk p.activeBuffs

/-! ## Quest engine (src/system/quest_engine.py, src/storage/database.py) -/

/-- `QuestType` (src/storage/models.py). -/
inductive QuestType where
  | daily
  | main
  | side
  | hidden
  | emergency
deriving DecidableEq, Repr

/-- `QuestStatus` (src/storage/models.py). -/
inductive QuestStatus where
  | pending
  | active
  | completed
  | failed
  | expired
deriving DecidableEq, Repr

/-- `QuestDifficulty` (src/storage/models.py), the 6-tier ordinal E..S. -/
inductive QuestDifficulty where
  | E
  | D
  | C
  | B
  | A
  | S
deriving DecidableEq, Repr

/-- A wall-clock instant as the quest engine reads it: the calendar day (as
the `%Y%m%d` string the daily-quest ids embed) and a time of day. -/
structure PyDateTime where
  ymd : String
  hour : Nat
  minute : Nat
  second : Nat
deriving DecidableEq, Repr

/-- `now.replace(hour=23, minute=59, second=59)`: the same-day deadline
given to generated daily quests. -/
def endOfDay (now : PyDateTime) : PyDateTime :=
  { now with hour := 23, minute := 59, second := 59 }

/-- A `Quest` row (src/storage/models.py).  Description, objectives,
rewards dict, context and the two audit timestamps are elided; none of
them feed the quest state machine. -/
structure Quest where
  id : String
  qtype : QuestType
  title : String
  difficulty : QuestDifficulty
  status : QuestStatus
  expReward : Int
  deadline : Option PyDateTime
  source : String
deriving DecidableEq, Repr

/-- The quest table, with `id` as primary key. Row order is immaterial to
the verified properties (the SQL layer orders query results by
`created_at`, which is elided). -/
def getQuest (db : List Quest) (questId : String) : Option Quest :=
  db.find? (fun q => q.id == questId)

/-- `Database.save_quest`: `INSERT OR REPLACE` keyed on id. -/
def saveQuest (db : List Quest) (q : Quest) : List Quest :=
  if db.any (fun r => r.id == q.id) then
    db.map (fun r => if r.id == q.id then q else r)
  else db ++ [q]

/-- `Database.get_active_quests`: rows whose status is pending or active. -/
def getActiveQuests (db : List Quest) : List Quest :=
  db.filter (fun q => q.status == QuestStatus.pending || q.status == QuestStatus.active)

/-- One `DAILY_QUESTS` template entry (title, difficulty, exp reward;
description and category elided). -/
structure DailyTemplate where
  title : String
  difficulty : QuestDifficulty
  expReward : Int
deriving DecidableEq, Repr

/-- The fixed `DAILY_QUESTS` template set. -/
def DAILY_QUESTS : List DailyTemplate :=
  [ { title := "晨间训练", difficulty := .D, expReward := 20 },
    { title := "知识汲取", difficulty := .D, expReward := 20 },
    { title := "专注时刻", difficulty := .C, expReward := 30 } ]

/-- The filter `generate_daily_quests` uses to find an already-generated
set: a daily-typed quest whose id starts with `daily_<today>`. -/
def isTodayDaily (today : String) (q : Quest) : Bool :=
  q.qtype == QuestType.daily && ("daily_" ++ today).data.isPrefixOf q.id.data

/-- The quest rows `generate_daily_quests` instantiates from the
`DAILY_QUESTS` templates: active status, a `daily_<today>_<uuid>` id and a
same-day 23:59:59 deadline.  `fresh` supplies the uuid hex fragments. -/
def newDailyQuests (now : PyDateTime) (fresh : Nat → String) : List Quest :=
  DAILY_QUESTS.enum.map
    (fun it =>
      { id := "daily_" ++ now.ymd ++ "_" ++ fresh it.1, qtype := QuestType.daily,
        title := it.2.title, difficulty := it.2.difficulty,
        status := QuestStatus.active, expReward := it.2.expReward,
        deadline := some (endOfDay now), source := "daily" : Quest })

/-- The third instantiated daily-template row, used as the witness that a
fresh generation leaves today's dailies in the table. -/
def thirdDailyQuest (now : PyDateTime) (fresh : Nat → String) : Quest :=
  { id := "daily_" ++ now.ymd ++ "_" ++ fresh 2, qtype := QuestType.daily,
    title := "专注时刻", difficulty := QuestDifficulty.C, status := QuestStatus.active,
    expReward := 30, deadline := some (endOfDay now), source := "daily" }

/-- `QuestEngine.generate_daily_quests`: if a pending/active daily quest
carrying today's id stem already exists, return those rows and leave the
table alone; otherwise instantiate the template set and save each row.
Returns the quests handed back to the caller and the updated table. -/
def generateDailyQuests (now : PyDateTime) (fresh : Nat → String) (db : List Quest) :
    List Quest × List Quest :=
  if !((getActiveQuests db).filter (isTodayDaily now.ymd)).isEmpty then
    ((getActiveQuests db).filter (isTodayDaily now.ymd), db)
  else
    (newDailyQuests now fresh, (newDailyQuests now fresh).foldl saveQuest db)

/-- `QuestEngine.complete_quest`: decline (return `false`, change nothing)
when the quest is absent or not active; otherwise mark it completed, save
it, grant `gain_exp(exp_reward)` and bump `total_quests_completed`. -/
def completeQuest (db : List Quest) (p : Player) (questId : String) :
    Bool × List Quest × Player :=
  match getQuest db questId with
  | none => (false, db, p)
  | some q =>
    if q.status ≠ QuestStatus.active then (false, db, p)
    else
      let q2 := { q with status := QuestStatus.completed }
      let db2 := saveQuest db q2
      let p2 := gainExp p q.expReward
      (true, db2, { p2 with totalQuestsCompleted := p2.totalQuestsCompleted + 1 })

/-! ## Pattern detector (src/cognition/pattern_detector.py) -/

/-- The slice of a `ContextSnapshot` that `detect` reads: the focus score
and the activity category (the empty string models a missing category, as
in the Python truthiness test). -/
structure Snapshot where
  focusScore : ℚ
  category : String
deriving DecidableEq, Repr

/-- The categorised records of the window: `[s.activity_category for s in
snapshots if s.activity_category]`. -/
def categoriesOf (snapshots : List Snapshot) : List String :=
  (snapshots.filter (fun s => s.category != "")).map (fun s => s.category)

/-- The average focus: mean of the positive focus scores, 0.5 when none. -/
def avgFocusOf (snapshots : List Snapshot) : ℚ :=
  let focusScores := (snapshots.filter (fun s => 0 < s.focusScore)).map (fun s => s.focusScore)
  if focusScores.isEmpty then 1/2 else focusScores.sum / (focusScores.length : ℚ)

/-- `PatternDetector.detect`.  Inputs: the recent snapshot window (most
recent first, as `get_recent_snapshots` returns it), the window-switch
timestamps and the current time in seconds (for the 5-minute switch rate),
and the current hour (for the fatigue night check).  The rule chain is the
source's `if`/`elif` cascade; the pattern-transition bookkeeping after it
does not change the returned tag and is elided. -/
def detect (snapshots : List Snapshot) (windowTimes : List Int) (now : Int) (hour : Nat) :
    String :=
  if snapshots.length < 2 then "normal"
  else
    let categories := categoriesOf snapshots
    let avgFocus := avgFocusOf snapshots
    let switchRate := (windowTimes.filter (fun t => now - 300 < t)).length
    if 3 ≤ snapshots.length ∧ 3/4 ≤ avgFocus ∧
        ∀ s ∈ snapshots.take 3, s.category ≠ "" →
          s.category ∈ ["coding", "writing", "work", "learning"] then "deep_focus"
    else if avgFocus < 7/20 ∧ 8 ≤ switchRate then "distraction"
    else if (categories.length : ℚ) * (1/2) ≤ (categories.count "learning" : ℚ) ∧
        2 ≤ categories.length then "learning"
    else if (categories.length : ℚ) * (1/2) ≤
        ((categories.count "writing" + categories.count "creative" : ℕ) : ℚ) then "creative"
    else if 4 ≤ snapshots.length ∧ avgFocus < 3/10 then
      (if 23 ≤ hour ∨ hour < 5 ∨ avgFocus < 1/5 then "fatigue" else "normal")
    else if 10 ≤ switchRate ∧ avgFocus < 2/5 then
      (if 2/5 < ((categories.count "social" + categories.count "media" : ℕ) : ℚ) /
          (max categories.length 1 : ℚ) then "procrastination" else "normal")
    else "normal"

/-! ## Hidden-quest detector (server/system/hidden_quests.py) -/

/-- The firing policy of one `HIDDEN_QUESTS` entry: its id, whether it is
repeatable, and its cooldown in hours (0 when the key is absent, as in
`quest.get("cooldown_hours", 0)`). -/
structure HiddenQuestDef where
  id : String
  repeatable : Bool
  cooldownHours : Nat
deriving DecidableEq, Repr

/-- The `HIDDEN_QUESTS` catalog in dict order, reduced to firing policy. -/
def hiddenQuests : List HiddenQuestDef :=
  [ { id := "night_owl", repeatable := false, cooldownHours := 0 },
    { id := "early_bird", repeatable := false, cooldownHours := 0 },
    { id := "marathon_coder", repeatable := true, cooldownHours := 48 },
    { id := "focus_master", repeatable := true, cooldownHours := 24 },
    { id := "comeback_king", repeatable := true, cooldownHours := 72 },
    { id := "zero_distraction", repeatable := true, cooldownHours := 168 },
    { id := "first_blood", repeatable := false, cooldownHours := 0 },
    { id := "centurion", repeatable := false, cooldownHours := 0 },
    { id := "level_10", repeatable := false, cooldownHours := 0 },
    { id := "shadow_sovereign", repeatable := false, cooldownHours := 0 },
    { id := "weekend_warrior", repeatable := true, cooldownHours := 168 },
    { id := "midnight_countdown", repeatable := true, cooldownHours := 48 },
    { id := "new_year_grinder", repeatable := true, cooldownHours := 8760 },
    { id := "polyglot", repeatable := true, cooldownHours := 72 },
    { id := "device_hopper", repeatable := true, cooldownHours := 168 },
    { id := "perfect_day", repeatable := true, cooldownHours := 168 },
    { id := "break_the_chain", repeatable := false, cooldownHours := 0 },
    { id := "seven_day_warrior", repeatable := false, cooldownHours := 0 },
    { id := "system_gift", repeatable := true, cooldownHours := 48 },
    { id := "secret_double_exp", repeatable := true, cooldownHours := 72 } ]

/-- The firing-policy state of `HiddenQuestDetector`: the `_triggered`
id set and the `_cooldowns` map (cooldown-until instants, in hours).  The
rolling trackers (`_continuous_*`, `_focus_above_start`, pattern, daily
sets, streak) only feed the predicate evaluation, which is abstracted
below, so they are not carried here. -/
structure DetectorState where
  triggered : List String
  cooldowns : List (String × Nat)

/-- Dict assignment `self._cooldowns[quest_id] = ...`. -/
def upsertCooldown (cds : List (String × Nat)) (k : String) (v : Nat) : List (String × Nat) :=
  if cds.any (fun p => p.1 == k) then
    cds.map (fun p => if p.1 == k then (k, v) else p)
  else cds ++ [(k, v)]

/-- The per-definition loop of `check_triggers` over a catalog slice.
`pred id` abstracts the `match trigger["type"]` predicate evaluation for
the definition with that id on this call (the predicates read only the
call's inputs, the clock, and rolling trackers that are disjoint from the
`_triggered`/`_cooldowns` policy state modelled here).  A firing
definition is recorded in `_triggered` and, when it has a positive
cooldown, gets `cooldown_until = now + cooldown` (`fireState`). -/
def fireState (q : HiddenQuestDef) (now : Nat) (st : DetectorState) : DetectorState :=
  { triggered := q.id :: st.triggered,
    cooldowns :=
      if 0 < q.cooldownHours then upsertCooldown st.cooldowns q.id (now + q.cooldownHours)
      else st.cooldowns }

def checkTriggersAux (cat : List HiddenQuestDef) (pred : String → Bool) (now : Nat)
    (st : DetectorState) : List String × DetectorState :=
  match cat with
  | [] => ([], st)
  | q :: rest =>
    if st.triggered.contains q.id && !q.repeatable then
      checkTriggersAux rest pred now st
    else if (List.lookup q.id st.cooldowns).any (fun t => now < t) then
      checkTriggersAux rest pred now st
    else if pred q.id then
      let r := checkTriggersAux rest pred now (fireState q now st)
      (q.id :: r.1, r.2)
    else checkTriggersAux rest pred now st

/-- `HiddenQuestDetector.check_triggers`: one pass over the catalog,
returning the ids fired on this call. -/
def checkTriggers (pred : String → Bool) (now : Nat) (st : DetectorState) :
    List String × DetectorState :=
  checkTriggersAux hiddenQuests pred now st

/-- Run a sequence of `check_triggers` calls (each with its own predicate
valuation and clock), concatenating the fired ids. -/
def runDetector (st : DetectorState) (calls : List ((String → Bool) × Nat)) :
    List String × DetectorState :=
  match calls with
  | [] => ([], st)
  | c :: rest =>
    let r1 := checkTriggers c.1 c.2 st
    let r2 := runDetector r1.2 rest
    (r1.1 ++ r2.1, r2.2)

/-- A fresh detector: nothing triggered, no cooldowns. -/
def initDetectorState : DetectorState :=
  { triggered := [], cooldowns := [] }

/-! ## Shadow army (server/system/shadow_army.py) -/

/-- `ShadowStatus`. -/
inductive ShadowStatus where
  | dormant
  | active
  | cooldown
  | destroyed
deriving DecidableEq, Repr

/-- The mutable per-soldier state that the registry operations touch.
Identity, trigger/action specs and timestamps are elided.  `loyalty` is a
rational in steps of 1/20 (the Python float arithmetic on 0.05 steps). -/
structure ShadowSoldier where
  status : ShadowStatus
  level : Nat
  exp : Int
  expToNext : Int
  totalExecutions : Nat
  successfulExecutions : Nat
  failedExecutions : Nat
  loyalty : ℚ
deriving DecidableEq, Repr

/-- A newly extracted soldier (`ShadowSoldier` dataclass defaults). -/
def freshShadow : ShadowSoldier :=
  { status := .dormant, level := 1, exp := 0, expToNext := 100,
    totalExecutions := 0, successfulExecutions := 0, failedExecutions := 0, loyalty := 1 }

/-- `ShadowArmy.deploy_shadow` on a found soldier: declined when destroyed
or already active, otherwise dormant/cooldown → active. -/
def deployShadow (s : ShadowSoldier) : ShadowSoldier :=
  if s.status = ShadowStatus.destroyed then s
  else if s.status = ShadowStatus.active then s
  else { s with status := ShadowStatus.active }

/-- `ShadowArmy.recall_shadow` on a found soldier: the source sets the
status to dormant unconditionally — there is no destroyed check. -/
def recallShadow (s : ShadowSoldier) : ShadowSoldier :=
  { s with status := ShadowStatus.dormant }

/-- `ShadowArmy.destroy_shadow` on a found soldier. -/
def destroyShadow (s : ShadowSoldier) : ShadowSoldier :=
  { s with status := ShadowStatus.destroyed }

/-- `ShadowArmy.execute_shadow` on a found soldier: declined (no counter
change) unless deployed; otherwise bump `total_executions`. -/
def executeShadow (s : ShadowSoldier) : ShadowSoldier :=
  if s.status ≠ ShadowStatus.active then s
  else { s with totalExecutions := s.totalExecutions + 1 }

/-- `ShadowArmy.report_execution_result` on a found soldier.  Success adds
a success, grants level-scaled exp and may level up (threshold × 1.5,
truncated to int); failure adds a failure, decays loyalty by 0.05 with
floor 0.1, and destroys the soldier once loyalty ≤ 0.2. -/
def reportExecutionResult (s : ShadowSoldier) (success : Bool) : ShadowSoldier :=
  if success then
    let s1 := { s with successfulExecutions := s.successfulExecutions + 1,
                       exp := s.exp + (10 + (s.level : Int) * 2) }
    if s1.expToNext ≤ s1.exp then
      { s1 with level := s1.level + 1, exp := s1.exp - s1.expToNext,
                expToNext := pyInt ((s1.expToNext : ℚ) * (3/2)) }
    else s1
  else
    let s1 := { s with failedExecutions := s.failedExecutions + 1,
                       loyalty := max (1/10) (s.loyalty - 1/20) }
    if s1.loyalty ≤ 1/5 then { s1 with status := ShadowStatus.destroyed } else s1

/-- The registry operations on one soldier that the execution-counter
property ranges over. -/
inductive ShadowOp where
  | deploy
  | recall
  | destroy
  | exec
  | report (success : Bool)

/-- Dispatch one registry operation on the soldier. -/
def stepShadow (s : ShadowSoldier) (op : ShadowOp) : ShadowSoldier :=
  match op with
  | .deploy => deployShadow s
  | .recall => recallShadow s
  | .destroy => destroyShadow s
  | .exec => executeShadow s
  | .report success => reportExecutionResult s success

/-- Run a sequence of registry operations on the soldier. -/
def runShadow (s : ShadowSoldier) (ops : List ShadowOp) : ShadowSoldier :=
  ops.foldl stepShadow s

/-- Whether an operation is a `report_execution_result` call. -/
def isReport (op : ShadowOp) : Bool :=
  match op with
  | .report _ => true
  | _ => false

/-- Count the `report_execution_result` calls in a sequence. -/
def countReports (ops : List ShadowOp) : Nat :=
  ops.countP isReport

/-- The `total_executions` increment an operation causes: 1 for an
`execute_shadow` call that finds the soldier deployed, 0 otherwise. -/
def execContrib (s : ShadowSoldier) (op : ShadowOp) : Nat :=
  match op with
  | .exec => if s.status = ShadowStatus.active then 1 else 0
  | _ => 0

/-- Count the `execute_shadow` calls that find the soldier deployed (the
only ones that increment `total_executions`). -/
def effectiveExecs (s : ShadowSoldier) (ops : List ShadowOp) : Nat :=
  match ops with
  | [] => 0
  | op :: rest => execContrib s op + effectiveExecs (stepShadow s op) rest

/-! ## Concrete inputs used by witnesses and counterexamples -/

/-- A valid player whose focus gauge sits at 90. -/
def playerFocus90 : Player :=
  { initPlayer with stats := fun t => if t = Stat.focus then 90 else 50 }

/-- A buff catalog entry used as a concrete instance: `focus_zone`. -/
def focusZoneDef : BuffDef :=
  { id := "focus_zone", statDeltas := [(.focus, 20)],
    expMultiplier := some (3/2), isDebuff := false, durationMinutes := none }

/-- The `focus_zone` buff as `activate_buff` constructs it. -/
def focusZoneBuff : ActiveBuff :=
  { id := "focus_zone", statDeltas := [(.focus, 20)],
    expMultiplier := some (3/2), isDebuff := false }

/-- An already-completed daily quest of day 20260101. -/
def completedDailyQuest : Quest :=
  { id := "daily_20260101_aaaaaa", qtype := .daily, title := "晨间训练",
    difficulty := .D, status := .completed, expReward := 20,
    deadline := none, source := "daily" }

/-- A concrete instant on day 20260101. -/
def sampleNow : PyDateTime :=
  { ymd := "20260101", hour := 9, minute := 0, second := 0 }

/-- A concrete uuid-fragment stream. -/
def sampleFresh : Nat → String :=
  fun i => if i = 0 then "b00001" else if i = 1 then "b00002" else "b00003"

/-- A second uuid-fragment stream for the repeated call. -/
def sampleFresh2 : Nat → String :=
  fun i => if i = 0 then "c00001" else if i = 1 then "c00002" else "c00003"

/-- A two-snapshot window with exactly one categorised record (writing). -/
def creativeWindow : List Snapshot :=
  [ { focusScore := 1/2, category := "writing" },
    { focusScore := 1/2, category := "" } ]

/-- The `first_blood` hidden-quest policy entry (fire-once). -/
def firstBloodDef : HiddenQuestDef :=
  { id := "first_blood", repeatable := false, cooldownHours := 0 }

/-- Two detector calls whose predicates all evaluate true. -/
def alwaysTrueCalls : List ((String → Bool) × Nat) :=
  [(fun _ => true, 0), (fun _ => true, 0)]

/-- A destroyed soldier. -/
def destroyedShadow : ShadowSoldier :=
  { freshShadow with status := ShadowStatus.destroyed }

/-- A well-formed operation sequence: deploy, execute once, report once. -/
def protocolOps : List ShadowOp :=
  [.deploy, .exec, .report true]

/-! ## Lemmas about the clamped stat folds -/

theorem clamp_eq_self (x : Int) (h0 : 0 ≤ x) (h1 : x ≤ 100) : max 0 (min 100 x) = x := by
  omega

theorem applyDeltas_cons (s : Stat) (v : Int) (rest : List (Stat × Int)) (st : Stat → Int) :
    applyDeltas ((s, v) :: rest) st = applyDeltas rest (applyModifier st s v) := rfl

theorem applyDeltas_apply_notMem (deltas : List (Stat × Int)) (st : Stat → Int) (t : Stat)
    (h : ∀ sv ∈ deltas, sv.1 ≠ t) : applyDeltas deltas st t = st t := by
  induction deltas generalizing st with
  | nil => rfl
  | cons hd rest ih =>
    obtain ⟨s, v⟩ := hd
    rw [applyDeltas_cons, ih _ (fun sv hsv => h sv (List.mem_cons_of_mem _ hsv))]
    have hts : t ≠ s := fun he => (h (s, v) (List.mem_cons_self _ _)) he.symm
    simp [applyModifier, hts]

theorem applyDeltas_apply_mem (deltas : List (Stat × Int)) (st : Stat → Int) (t : Stat) (v : Int)
    (hmem : (t, v) ∈ deltas) (hnd : (deltas.map Prod.fst).Nodup) :
    applyDeltas deltas st t = max 0 (min 100 (st t + v)) := by
  induction deltas generalizing st with
  | nil => cases hmem
  | cons hd rest ih =>
    obtain ⟨s, w⟩ := hd
    rw [List.map_cons, List.nodup_cons] at hnd
    rw [applyDeltas_cons]
    rcases List.mem_cons.mp hmem with heq | hrest
    · cases heq
      have hout : ∀ sv ∈ rest, sv.1 ≠ t := by
        intro sv hsv he
        have hm : sv.1 ∈ rest.map Prod.fst := List.mem_map_of_mem Prod.fst hsv
        rw [he] at hm
        exact hnd.1 hm
      rw [applyDeltas_apply_notMem rest _ t hout]
      simp [applyModifier]
    · have hts : t ≠ s := by
        intro he
        have hm : t ∈ rest.map Prod.fst := List.mem_map_of_mem Prod.fst hrest
        rw [he] at hm
        exact hnd.1 hm
      rw [ih _ hrest hnd.2]
      simp [applyModifier, hts]

theorem negMap_fst (deltas : List (Stat × Int)) :
    (deltas.map (fun sv => (sv.1, -sv.2))).map Prod.fst = deltas.map Prod.fst := by
  rw [List.map_map]
  rfl

theorem applyDeltas_roundtrip (deltas : List (Stat × Int)) (st : Stat → Int)
    (hnd : (deltas.map Prod.fst).Nodup)
    (hrange : ∀ s, 0 ≤ st s ∧ st s ≤ 100)
    (hnoclamp : ∀ sv ∈ deltas, 0 ≤ st sv.1 + sv.2 ∧ st sv.1 + sv.2 ≤ 100) :
    applyDeltas (deltas.map (fun sv => (sv.1, -sv.2))) (applyDeltas deltas st) = st := by
  funext t
  by_cases ht : ∀ sv ∈ deltas, sv.1 ≠ t
  · have ht2 : ∀ sv ∈ deltas.map (fun sv => (sv.1, -sv.2)), sv.1 ≠ t := by
      intro sv hsv
      obtain ⟨u, hu, rfl⟩ := List.mem_map.mp hsv
      exact ht u hu
    rw [applyDeltas_apply_notMem _ _ _ ht2, applyDeltas_apply_notMem _ _ _ ht]
  · push_neg at ht
    obtain ⟨⟨s, v⟩, hmem, hst⟩ := ht
    subst hst
    have hmem2 : ((s, v).1, -v) ∈ deltas.map (fun sv => (sv.1, -sv.2)) :=
      List.mem_map_of_mem _ hmem
    have hnd2 : ((deltas.map (fun sv => (sv.1, -sv.2))).map Prod.fst).Nodup := by
      rw [negMap_fst]; exact hnd
    rw [applyDeltas_apply_mem _ _ _ _ hmem2 hnd2,
        applyDeltas_apply_mem _ _ _ _ hmem hnd,
        clamp_eq_self _ (hnoclamp _ hmem).1 (hnoclamp _ hmem).2]
    have := hrange (s, v).1
    omega

theorem removeBuff_negFold (deltas : List (Stat × Int)) (st : Stat → Int) :
    deltas.foldl (fun acc sv => applyModifier acc sv.1 (-sv.2)) st =
      applyDeltas (deltas.map (fun sv => (sv.1, -sv.2))) st := by
  rw [applyDeltas, List.foldl_map]

theorem removeBuff_last (p : Player) (buff : ActiveBuff)
    (h : p.activeBuffs.filter (fun b => b.id == buff.id) = [buff]) :
    removeBuff p buff.id =
      { p with activeBuffs := p.activeBuffs.filter (fun b => b.id != buff.id),
               stats := buff.statDeltas.foldl
                 (fun acc sv => applyModifier acc sv.1 (-sv.2)) p.stats } := by
  unfold removeBuff
  rw [h]
  rfl

theorem applyBuff_buffs (p : Player) (buff : ActiveBuff) :
    (applyBuff p buff).activeBuffs =
      p.activeBuffs.filter (fun b => b.id != buff.id) ++ [buff] := rfl

theorem applyBuff_stats (p : Player) (buff : ActiveBuff) :
    (applyBuff p buff).stats = applyDeltas buff.statDeltas p.stats := rfl

theorem filter_eq_id_applyBuff (p : Player) (buff : ActiveBuff) :
    (applyBuff p buff).activeBuffs.filter (fun b => b.id == buff.id) = [buff] := by
  rw [applyBuff_buffs, List.filter_append, List.filter_filter]
  have h1 : p.activeBuffs.filter
      (fun b => (b.id == buff.id) && (b.id != buff.id)) = [] := by
    apply List.filter_eq_nil_iff.mpr
    intro b _
    simp only [Bool.and_eq_true, beq_iff_eq, bne_iff_ne, ne_eq]
    rintro ⟨h1, h2⟩
    exact h2 h1
  rw [h1]
  simp

theorem removeBuff_applyBuff_stats (p : Player) (buff : ActiveBuff) :
    (removeBuff (applyBuff p buff) buff.id).stats =
      buff.statDeltas.foldl (fun acc sv => applyModifier acc sv.1 (-sv.2))
        (applyDeltas buff.statDeltas p.stats) := by
  rw [removeBuff_last _ _ (filter_eq_id_applyBuff p buff)]
  rfl

theorem buffDefs_find? (d : BuffDef) (hd : d ∈ buffDefinitions) :
    buffDefinitions.find? (fun e => e.id == d.id) = some d := by
  fin_cases hd <;> rfl

theorem buffDefs_deltaKeys_nodup (d : BuffDef) (hd : d ∈ buffDefinitions) :
    (d.statDeltas.map Prod.fst).Nodup := by
  fin_cases hd <;> decide

theorem focusZoneDef_mem : focusZoneDef ∈ buffDefinitions := List.mem_cons_self _ _

/-! ## C1 — buff activation/deactivation round trip -/

/-- C1 (amended): for every catalog entry, when the effect is not already
active, the starting gauges are valid (in [0, 100]) and no stat application
clamps (each affected gauge plus its delta stays inside [0, 100]),
`activate(id)` followed immediately by `deactivate(id)` restores every stat
gauge to its pre-activation value.  The unamended claim — every starting
state — fails at the clamp boundary (see the counterexample). -/
theorem effect_activate_deactivate_roundtrip (d : BuffDef) (hd : d ∈ buffDefinitions)
    (p : Player) (hfree : ∀ b ∈ p.activeBuffs, b.id ≠ d.id)
    (hrange : ∀ s, 0 ≤ p.stats s ∧ p.stats s ≤ 100)
    (hnoclamp : ∀ sv ∈ d.statDeltas, 0 ≤ p.stats sv.1 + sv.2 ∧ p.stats sv.1 + sv.2 ≤ 100) :
    (removeBuff (activateBuff p d.id) d.id).stats = p.stats := by
  have hany : p.activeBuffs.any (fun b => b.id == d.id) = false := by
    rw [List.any_eq_false]
    intro b hb
    simpa using hfree b hb
  unfold activateBuff
  rw [buffDefs_find? d hd, hany]
  simp only [Bool.false_eq_true, if_false]
  have h1 := removeBuff_applyBuff_stats p
    { id := d.id, statDeltas := d.statDeltas, expMultiplier := d.expMultiplier,
      isDebuff := d.isDebuff }
  exact h1.trans (by
    rw [removeBuff_negFold]
    exact applyDeltas_roundtrip d.statDeltas p.stats
      (buffDefs_deltaKeys_nodup d hd) hrange hnoclamp)

/-- C1 counterexample: a valid player whose focus gauge sits at 90.
Activating `focus_zone` (+20 focus) clamps at 100, and deactivating then
lands at 80 ≠ 90, refuting the round-trip law for every starting state. -/
theorem effect_roundtrip_clamp_counterexample :
    (removeBuff (activateBuff playerFocus90 "focus_zone") "focus_zone").stats Stat.focus ≠
      playerFocus90.stats Stat.focus := by decide

/-- C1 witness: the amended round trip at the default player and the
`focus_zone` catalog entry. -/
theorem effect_activate_deactivate_roundtrip_witness :
    (removeBuff (activateBuff initPlayer "focus_zone") "focus_zone").stats = initPlayer.stats :=
  effect_activate_deactivate_roundtrip focusZoneDef focusZoneDef_mem initPlayer
    (by intro b hb; cases hb) (by intro s; cases s <;> exact ⟨by decide, by decide⟩) (by decide)

/-! ## C10 — re-applying a same-id buff stacks its delta -/

/-- C10: `apply_buff` with an id already active drops the old copy without
reverting its deltas and applies the new deltas on top, so — absent
clamping — applying a buff twice leaves each affected gauge at +2·delta,
and one `remove_buff` then leaves it offset by one delta from its original
value. -/
theorem duplicate_buff_apply_leaves_residual_delta (p : Player) (buff : ActiveBuff)
    (hnd : (buff.statDeltas.map Prod.fst).Nodup)
    (h1 : ∀ sv ∈ buff.statDeltas, 0 ≤ p.stats sv.1 + sv.2 ∧ p.stats sv.1 + sv.2 ≤ 100)
    (h2 : ∀ sv ∈ buff.statDeltas, 0 ≤ p.stats sv.1 + 2 * sv.2 ∧ p.stats sv.1 + 2 * sv.2 ≤ 100) :
    ∀ sv ∈ buff.statDeltas,
      (applyBuff (applyBuff p buff) buff).stats sv.1 = p.stats sv.1 + 2 * sv.2 ∧
      (removeBuff (applyBuff (applyBuff p buff) buff) buff.id).stats sv.1 =
        p.stats sv.1 + sv.2 := by
  intro sv hmem
  have hdouble : (applyBuff (applyBuff p buff) buff).stats sv.1 = p.stats sv.1 + 2 * sv.2 := by
    rw [applyBuff_stats, applyBuff_stats,
        applyDeltas_apply_mem _ _ sv.1 sv.2 hmem hnd,
        applyDeltas_apply_mem _ _ sv.1 sv.2 hmem hnd,
        clamp_eq_self _ (h1 sv hmem).1 (h1 sv hmem).2]
    have := h2 sv hmem
    omega
  refine ⟨hdouble, ?_⟩
  have hfold := removeBuff_applyBuff_stats (applyBuff p buff) buff
  have hres : (removeBuff (applyBuff (applyBuff p buff) buff) buff.id).stats sv.1 =
      applyDeltas (buff.statDeltas.map (fun sv => (sv.1, -sv.2)))
        ((applyBuff (applyBuff p buff) buff).stats) sv.1 := by
    rw [hfold, removeBuff_negFold]
    rfl
  have hmem2 : (sv.1, -sv.2) ∈ buff.statDeltas.map (fun sv => (sv.1, -sv.2)) := by
    have := List.mem_map_of_mem (fun sv : Stat × Int => (sv.1, -sv.2)) hmem
    simpa using this
  rw [hres, applyDeltas_apply_mem _ _ sv.1 (-sv.2) hmem2
      (by rw [negMap_fst]; exact hnd), hdouble]
  have ha := h1 sv hmem
  omega

/-- C10 witness: the default player with the `focus_zone` buff — two
applications push focus from 50 to 90, one removal leaves it at 70, an
offset of one +20 delta. -/
theorem duplicate_buff_apply_leaves_residual_delta_witness :
    (applyBuff (applyBuff initPlayer focusZoneBuff) focusZoneBuff).stats Stat.focus =
      initPlayer.stats Stat.focus + 2 * 20 ∧
    (removeBuff (applyBuff (applyBuff initPlayer focusZoneBuff) focusZoneBuff)
        "focus_zone").stats Stat.focus = initPlayer.stats Stat.focus + 20 :=
  duplicate_buff_apply_leaves_residual_delta initPlayer focusZoneBuff
    (by decide) (by decide) (by decide) (Stat.focus, 20) (by decide)

/-! ## C2 — recall on a destroyed shadow -/

/-- C2: the claim says `destroyed` is terminal and `recall` moves only
non-destroyed agents to dormant.  `recall_shadow` in the source carries no
destroyed check (unlike `deploy_shadow`), so recalling a destroyed soldier
resurrects it to dormant — the code contradicts the destroy-is-terminal
design visible everywhere else in the module. -/
theorem recall_resurrects_destroyed_shadow :
    destroyedShadow.status = ShadowStatus.destroyed ∧
    (recallShadow destroyedShadow).status = ShadowStatus.dormant := ⟨rfl, rfl⟩

/-! ## C4 — experience-gain cascade and the threshold formula -/

theorem lookup_none_of_gt10 (k : Nat) (hk : 10 < k) : List.lookup k LEVEL_TABLE = none := by
  have h1 : (k == 1) = false := by simp; omega
  have h2 : (k == 2) = false := by simp; omega
  have h3 : (k == 3) = false := by simp; omega
  have h4 : (k == 4) = false := by simp; omega
  have h5 : (k == 5) = false := by simp; omega
  have h6 : (k == 6) = false := by simp; omega
  have h7 : (k == 7) = false := by simp; omega
  have h8 : (k == 8) = false := by simp; omega
  have h9 : (k == 9) = false := by simp; omega
  have h10 : (k == 10) = false := by simp; omega
  simp [LEVEL_TABLE, List.lookup, h1, h2, h3, h4, h5, h6, h7, h8, h9, h10]

theorem expMultProduct_none (buffs : List ActiveBuff)
    (h : ∀ b ∈ buffs, b.expMultiplier = none) : expMultProduct buffs = 1 := by
  suffices haux : ∀ acc : ℚ,
      buffs.foldl
        (fun acc b => match b.expMultiplier with
          | some m => acc * m
          | none => acc) acc = acc from haux 1
  induction buffs with
  | nil => intro acc; rfl
  | cons b rest ih =>
    intro acc
    rw [List.foldl_cons, h b (List.mem_cons_self _ _)]
    exact ih (fun c hc => h c (List.mem_cons_of_mem _ hc)) acc

theorem levelUpLoop_step1 (stats : Stat → Int) :
    levelUpLoop 250 1 250 stats = levelUpLoop 249 2 150 (levelUpStats stats) := by
  show levelUpLoop (249+1) 1 250 stats = _
  rw [levelUpLoop, if_pos (by decide)]
  norm_num [show expForLevel 1 = 100 from by decide]

theorem levelUpLoop_step2 (stats : Stat → Int) :
    levelUpLoop 249 2 150 stats = (2, 150, stats) := by
  show levelUpLoop (248+1) 2 150 stats = _
  rw [levelUpLoop, if_neg (by decide)]

/-- C4: for every player at level 1 with exp 0 and no active
experience-multiplier effects, `gain_exp(250)` consumes threshold(1) = 100,
lands on level 2 with 150 exp, and threshold(2) = 200 > 150 stops the
cascade; the threshold is the fixed table on levels 1–10 and
`5500 + (level - 10) * 1000` beyond it. -/
theorem gain_exp_cascade_and_threshold_table (p : Player) (hlevel : p.level = 1)
    (hexp : p.exp = 0) (hnomult : ∀ b ∈ p.activeBuffs, b.expMultiplier = none) :
    ((gainExp p 250).level = 2 ∧ (gainExp p 250).exp = 150) ∧
    (expForLevel 1 = 100 ∧ expForLevel 2 = 200 ∧ expForLevel 10 = 5500) ∧
    (∀ n : Nat, expForLevel (n + 11) = 5500 + ((n + 11 : Int) - 10) * 1000) := by
  refine ⟨?_, by decide, ?_⟩
  · have hm : expMultProduct p.activeBuffs = 1 := expMultProduct_none _ hnomult
    have hpy : pyInt (((250 : Int) : ℚ) * expMultProduct p.activeBuffs) = 250 := by
      rw [hm, mul_one]
      norm_num [pyInt]
      decide
    simp only [gainExp, hpy, hexp, hlevel, zero_add]
    rw [show ((250 : Int)).toNat = 250 from rfl, levelUpLoop_step1, levelUpLoop_step2]
    exact ⟨rfl, rfl⟩
  · intro n
    rw [expForLevel, lookup_none_of_gt10 (n + 11) (by omega)]
    push_cast
    ring

/-- C4 witness: the cascade at the default boot player. -/
theorem gain_exp_cascade_and_threshold_table_witness :
    ((gainExp initPlayer 250).level = 2 ∧ (gainExp initPlayer 250).exp = 150) ∧
    (expForLevel 1 = 100 ∧ expForLevel 2 = 200 ∧ expForLevel 10 = 5500) ∧
    (∀ n : Nat, expForLevel (n + 11) = 5500 + ((n + 11 : Int) - 10) * 1000) :=
  gain_exp_cascade_and_threshold_table initPlayer rfl rfl (by intro b hb; cases hb)

/-! ## C5 — completing a non-active quest is declined -/

/-- C5: `complete_quest` on a quest that exists but is not active — in
particular one already completed — returns the declined result and leaves
the quest table (hence the quest's status) and the player (exp and
`total_quests_completed`) unchanged. -/
theorem complete_quest_declined_when_not_active (db : List Quest) (p : Player)
    (questId : String) (q : Quest) (hq : getQuest db questId = some q)
    (hstatus : q.status ≠ QuestStatus.active) :
    completeQuest db p questId = (false, db, p) := by
  unfold completeQuest
  rw [hq]
  simp [hstatus]

/-- C5 witness: the declined result on a one-row table holding an
already-completed daily quest. -/
theorem complete_quest_declined_when_not_active_witness :
    completeQuest [completedDailyQuest] initPlayer "daily_20260101_aaaaaa" =
      (false, [completedDailyQuest], initPlayer) :=
  complete_quest_declined_when_not_active [completedDailyQuest] initPlayer
    "daily_20260101_aaaaaa" completedDailyQuest (by decide) (by decide)

/-! ## C7 — execution counters -/

theorem stepShadow_total (s : ShadowSoldier) (op : ShadowOp) :
    (stepShadow s op).totalExecutions = s.totalExecutions + execContrib s op := by
  cases op
  · show (deployShadow s).totalExecutions = s.totalExecutions + 0
    unfold deployShadow
    split_ifs <;> simp
  · simp [stepShadow, recallShadow, execContrib]
  · simp [stepShadow, destroyShadow, execContrib]
  · show (executeShadow s).totalExecutions =
      s.totalExecutions + (if s.status = ShadowStatus.active then 1 else 0)
    unfold executeShadow
    by_cases h : s.status = ShadowStatus.active
    · rw [if_neg (not_not_intro h), if_pos h]
    · rw [if_pos h, if_neg h]
      simp
  · next b =>
    show (reportExecutionResult s b).totalExecutions = s.totalExecutions + 0
    cases b
    · simp only [reportExecutionResult, Bool.false_eq_true, if_false]
      split_ifs <;> simp
    · simp only [reportExecutionResult, if_true]
      split_ifs <;> simp

theorem stepShadow_reports (s : ShadowSoldier) (op : ShadowOp) :
    (stepShadow s op).successfulExecutions + (stepShadow s op).failedExecutions =
      s.successfulExecutions + s.failedExecutions + (if isReport op then 1 else 0) := by
  cases op
  · show (deployShadow s).successfulExecutions + (deployShadow s).failedExecutions =
      s.successfulExecutions + s.failedExecutions + 0
    unfold deployShadow
    split_ifs <;> simp
  · simp [stepShadow, recallShadow, isReport]
  · simp [stepShadow, destroyShadow, isReport]
  · show (executeShadow s).successfulExecutions + (executeShadow s).failedExecutions =
      s.successfulExecutions + s.failedExecutions + 0
    unfold executeShadow
    split_ifs <;> simp
  · next b =>
    show (reportExecutionResult s b).successfulExecutions +
        (reportExecutionResult s b).failedExecutions =
      s.successfulExecutions + s.failedExecutions + 1
    cases b
    · simp only [reportExecutionResult, Bool.false_eq_true, if_false]
      split_ifs <;> (simp only []; omega)
    · simp only [reportExecutionResult, if_true]
      split_ifs <;> (simp only []; omega)

theorem runShadow_cons (s : ShadowSoldier) (op : ShadowOp) (rest : List ShadowOp) :
    runShadow s (op :: rest) = runShadow (stepShadow s op) rest := rfl

theorem runShadow_total (ops : List ShadowOp) (s : ShadowSoldier) :
    (runShadow s ops).totalExecutions = s.totalExecutions + effectiveExecs s ops := by
  induction ops generalizing s with
  | nil => rfl
  | cons op rest ih =>
    rw [runShadow_cons, ih, stepShadow_total, effectiveExecs, Nat.add_assoc]

theorem runShadow_reports (ops : List ShadowOp) (s : ShadowSoldier) :
    (runShadow s ops).successfulExecutions + (runShadow s ops).failedExecutions =
      s.successfulExecutions + s.failedExecutions + countReports ops := by
  induction ops generalizing s with
  | nil => rfl
  | cons op rest ih =>
    rw [runShadow_cons, ih, stepShadow_reports]
    simp only [countReports, List.countP_cons]
    omega

/-- C7 counterexample: reporting a result without any prior execution —
`report_execution_result` performs no status or pairing check — pushes
successes + failures above `total_executions` on a fresh soldier. -/
theorem report_without_execute_counterexample :
    ¬ ((runShadow freshShadow [ShadowOp.report true]).successfulExecutions +
        (runShadow freshShadow [ShadowOp.report true]).failedExecutions ≤
      (runShadow freshShadow [ShadowOp.report true]).totalExecutions) := by decide

/-- C7 (amended): over every operation sequence that respects the reporting
protocol — no more `report_execution_result` calls than `execute_shadow`
calls that actually found the soldier deployed — a fresh soldier's
successes plus failures never exceed `total_executions`.  Unrestricted
sequences violate the bound (see the counterexample): a report needs no
prior execution. -/
theorem execution_counters_under_report_protocol (ops : List ShadowOp)
    (hproto : countReports ops ≤ effectiveExecs freshShadow ops) :
    (runShadow freshShadow ops).successfulExecutions +
        (runShadow freshShadow ops).failedExecutions ≤
      (runShadow freshShadow ops).totalExecutions := by
  rw [runShadow_reports, runShadow_total]
  show 0 + 0 + countReports ops ≤ 0 + effectiveExecs freshShadow ops
  omega

/-- C7 witness: deploy, execute, report — one report against one effective
execution. -/
theorem execution_counters_under_report_protocol_witness :
    (runShadow freshShadow protocolOps).successfulExecutions +
        (runShadow freshShadow protocolOps).failedExecutions ≤
      (runShadow freshShadow protocolOps).totalExecutions :=
  execution_counters_under_report_protocol protocolOps (by decide)


/-! ## C3 — gauges stay in [0, 100] and exp stays non-negative -/

theorem applyModifier_range (stats : Stat → Int) (s : Stat) (v : Int)
    (h : statsInRange stats) : statsInRange (applyModifier stats s v) := by
  intro t
  unfold applyModifier
  by_cases ht : t = s
  · rw [if_pos ht]
    omega
  · rw [if_neg ht]
    exact h t

theorem applyDeltas_range (deltas : List (Stat × Int)) (stats : Stat → Int)
    (h : statsInRange stats) : statsInRange (applyDeltas deltas stats) := by
  induction deltas generalizing stats with
  | nil => exact h
  | cons hd rest ih =>
    obtain ⟨s, v⟩ := hd
    rw [applyDeltas_cons]
    exact ih _ (applyModifier_range stats s v h)

theorem levelUpStats_range (stats : Stat → Int) (h : statsInRange stats) :
    statsInRange (levelUpStats stats) := by
  unfold levelUpStats allStats
  simp only [List.foldl_cons, List.foldl_nil]
  exact applyModifier_range _ _ _ (applyModifier_range _ _ _ (applyModifier_range _ _ _
    (applyModifier_range _ _ _ (applyModifier_range _ _ _ h))))

theorem levelUpLoop_ok (fuel : Nat) (level : Nat) (exp : Int) (stats : Stat → Int)
    (hexp : 0 ≤ exp) (hst : statsInRange stats) :
    0 ≤ (levelUpLoop fuel level exp stats).2.1 ∧
      statsInRange (levelUpLoop fuel level exp stats).2.2 := by
  induction fuel generalizing level exp stats with
  | zero => exact ⟨hexp, hst⟩
  | succ fuel ih =>
    rw [levelUpLoop]
    split_ifs with h
    · exact ih _ _ _ (by omega) (levelUpStats_range stats hst)
    · exact ⟨hexp, hst⟩

theorem pyInt_nonneg (q : ℚ) (h : 0 ≤ q) : 0 ≤ pyInt q := by
  unfold pyInt
  rw [if_pos h]
  exact Rat.le_floor.mpr (by exact_mod_cast h)

theorem expMultProduct_nonneg (buffs : List ActiveBuff)
    (h : buffMultsOk buffs) : 0 ≤ expMultProduct buffs := by
  suffices haux : ∀ acc : ℚ, 0 ≤ acc →
      0 ≤ buffs.foldl
        (fun acc b => match b.expMultiplier with
          | some m => acc * m
          | none => acc) acc by
    exact haux 1 (by norm_num)
  induction buffs with
  | nil => intro acc hacc; exact hacc
  | cons b rest ih =>
    intro acc hacc
    rw [List.foldl_cons]
    have hb : ∀ m, b.expMultiplier = some m → 0 ≤ m :=
      h b (List.mem_cons_self _ _)
    have hrest : buffMultsOk rest := fun c hc => h c (List.mem_cons_of_mem _ hc)
    cases hm : b.expMultiplier with
    | none => simp only [hm]; exact ih hrest acc hacc
    | some m =>
      simp only [hm]
      exact ih hrest (acc * m) (mul_nonneg hacc (hb m hm))

theorem gainExp_buffs (p : Player) (amount : Int) :
    (gainExp p amount).activeBuffs = p.activeBuffs := rfl

theorem gainExp_ok (p : Player) (amount : Int) (hp : playerOk p) (ha : 0 ≤ amount) :
    playerOk (gainExp p amount) := by
  obtain ⟨hst, hexp, hmult⟩ := hp
  have hmul : 0 ≤ expMultProduct p.activeBuffs := expMultProduct_nonneg _ hmult
  have hadd : 0 ≤ pyInt ((amount : ℚ) * expMultProduct p.activeBuffs) :=
    pyInt_nonneg _ (mul_nonneg (by exact_mod_cast ha) hmul)
  have hloop := levelUpLoop_ok
    (p.exp + pyInt ((amount : ℚ) * expMultProduct p.activeBuffs)).toNat p.level
    (p.exp + pyInt ((amount : ℚ) * expMultProduct p.activeBuffs)) p.stats
    (by omega) hst
  exact ⟨hloop.2, hloop.1, hmult⟩

theorem catalogMults_nonneg (d : BuffDef) (hd : d ∈ buffDefinitions) :
    ∀ m, d.expMultiplier = some m → 0 ≤ m := by
  fin_cases hd <;> intro m hm <;> simp only [Option.some.injEq] at hm <;>
    first
      | (rw [← hm]; norm_num)
      | cases hm

/-! ## C6 — a fire-once trigger fires at most once ever -/

theorem checkTriggersAux_nil (pred : String → Bool) (now : Nat) (st : DetectorState) :
    checkTriggersAux [] pred now st = ([], st) := rfl

theorem checkTriggersAux_cons_skip1 (e : HiddenQuestDef) (rest : List HiddenQuestDef)
    (pred : String → Bool) (now : Nat) (st : DetectorState)
    (h : (st.triggered.contains e.id && !e.repeatable) = true) :
    checkTriggersAux (e :: rest) pred now st = checkTriggersAux rest pred now st := by
  rw [checkTriggersAux, if_pos h]

theorem checkTriggersAux_cons_skip2 (e : HiddenQuestDef) (rest : List HiddenQuestDef)
    (pred : String → Bool) (now : Nat) (st : DetectorState)
    (h1 : ¬ (st.triggered.contains e.id && !e.repeatable) = true)
    (h2 : ((List.lookup e.id st.cooldowns).any (fun t => now < t)) = true) :
    checkTriggersAux (e :: rest) pred now st = checkTriggersAux rest pred now st := by
  rw [checkTriggersAux, if_neg h1, if_pos h2]

theorem checkTriggersAux_cons_fire (e : HiddenQuestDef) (rest : List HiddenQuestDef)
    (pred : String → Bool) (now : Nat) (st : DetectorState)
    (h1 : ¬ (st.triggered.contains e.id && !e.repeatable) = true)
    (h2 : ¬ ((List.lookup e.id st.cooldowns).any (fun t => now < t)) = true)
    (h3 : pred e.id = true) :
    checkTriggersAux (e :: rest) pred now st =
      (e.id :: (checkTriggersAux rest pred now (fireState e now st)).1,
        (checkTriggersAux rest pred now (fireState e now st)).2) := by
  rw [checkTriggersAux, if_neg h1, if_neg h2, if_pos h3]

theorem checkTriggersAux_cons_nofire (e : HiddenQuestDef) (rest : List HiddenQuestDef)
    (pred : String → Bool) (now : Nat) (st : DetectorState)
    (h1 : ¬ (st.triggered.contains e.id && !e.repeatable) = true)
    (h2 : ¬ ((List.lookup e.id st.cooldowns).any (fun t => now < t)) = true)
    (h3 : ¬ pred e.id = true) :
    checkTriggersAux (e :: rest) pred now st = checkTriggersAux rest pred now st := by
  rw [checkTriggersAux, if_neg h1, if_neg h2, if_neg h3]

theorem fireState_triggered (e : HiddenQuestDef) (now : Nat) (st : DetectorState) :
    (fireState e now st).triggered = e.id :: st.triggered := rfl

theorem checkTriggersAux_fireOnce (q : HiddenQuestDef)
    (pred : String → Bool) (now : Nat) :
    ∀ (cat : List HiddenQuestDef) (st : DetectorState),
      (∀ e ∈ cat, e.id = q.id → e.repeatable = false) →
      cat.countP (fun e => e.id == q.id) ≤ 1 →
      (q.id ∈ st.triggered → (checkTriggersAux cat pred now st).1.count q.id = 0) ∧
      (checkTriggersAux cat pred now st).1.count q.id ≤ 1 ∧
      (1 ≤ (checkTriggersAux cat pred now st).1.count q.id →
        q.id ∈ (checkTriggersAux cat pred now st).2.triggered) ∧
      (q.id ∈ st.triggered → q.id ∈ (checkTriggersAux cat pred now st).2.triggered) ∧
      (q.id ∈ (checkTriggersAux cat pred now st).2.triggered →
        q.id ∈ st.triggered ∨ q.id ∈ (checkTriggersAux cat pred now st).1) := by
  intro cat
  induction cat with
  | nil =>
    intro st _ _
    refine ⟨fun _ => rfl, ?_, fun h => ?_, fun h => h, fun h => Or.inl h⟩
    · rw [checkTriggersAux_nil]
      simp
    · rw [checkTriggersAux_nil] at h
      simp at h
  | cons e rest ih =>
    intro st Hall Hcnt
    have Hall' : ∀ x ∈ rest, x.id = q.id → x.repeatable = false :=
      fun x hx => Hall x (List.mem_cons_of_mem _ hx)
    have Hcnt' : rest.countP (fun x => x.id == q.id) ≤ 1 := by
      rw [List.countP_cons] at Hcnt
      omega
    by_cases hskip1 : (st.triggered.contains e.id && !e.repeatable) = true
    · rw [checkTriggersAux_cons_skip1 e rest pred now st hskip1]
      exact ih st Hall' Hcnt'
    by_cases hskip2 : ((List.lookup e.id st.cooldowns).any (fun t => now < t)) = true
    · rw [checkTriggersAux_cons_skip2 e rest pred now st hskip1 hskip2]
      exact ih st Hall' Hcnt'
    by_cases hpred : pred e.id = true
    case neg =>
      rw [checkTriggersAux_cons_nofire e rest pred now st hskip1 hskip2 hpred]
      exact ih st Hall' Hcnt'
    -- fire branch
    rw [checkTriggersAux_cons_fire e rest pred now st hskip1 hskip2 hpred]
    have ih2 := ih (fireState e now st) Hall' Hcnt'
    by_cases he : e.id = q.id
    · -- the fired entry carries q's id
      have herep : e.repeatable = false := Hall e (List.mem_cons_self _ _) he
      have hnotin : q.id ∉ st.triggered := by
        intro hin
        apply hskip1
        rw [he, herep]
        simp only [Bool.not_false, Bool.and_true]
        exact List.elem_eq_true_of_mem hin
      have hin2 : q.id ∈ (fireState e now st).triggered := by
        rw [fireState_triggered, he]
        exact List.mem_cons_self _ _
      have hout0 : (checkTriggersAux rest pred now (fireState e now st)).1.count q.id = 0 :=
        ih2.1 hin2
      refine ⟨fun hin => absurd hin hnotin, ?_, ?_, fun hin => absurd hin hnotin, ?_⟩
      · simp only [List.count_cons, hout0, he]
        simp
      · intro _
        exact ih2.2.2.2.1 hin2
      · intro _
        rw [he]
        exact Or.inr (List.mem_cons_self _ _)
    · -- a different entry fired
      have hmemiff : q.id ∈ (fireState e now st).triggered ↔ q.id ∈ st.triggered := by
        rw [fireState_triggered]
        simp only [List.mem_cons]
        exact ⟨fun h => h.elim (fun h1 => absurd h1.symm he) id, Or.inr⟩
      have hcons : (e.id :: (checkTriggersAux rest pred now (fireState e now st)).1).count q.id =
          (checkTriggersAux rest pred now (fireState e now st)).1.count q.id := by
        rw [List.count_cons]
        simp [he]
      refine ⟨?_, ?_, ?_, ?_, ?_⟩
      · intro hin
        rw [hcons]
        exact ih2.1 (hmemiff.mpr hin)
      · rw [hcons]
        exact ih2.2.1
      · intro hge
        rw [hcons] at hge
        exact ih2.2.2.1 hge
      · intro hin
        exact ih2.2.2.2.1 (hmemiff.mpr hin)
      · intro hin
        rcases ih2.2.2.2.2 hin with h | h
        · exact Or.inl (hmemiff.mp h)
        · exact Or.inr (List.mem_cons_of_mem _ h)

theorem checkTriggers_fireOnce (q : HiddenQuestDef)
    (pred : String → Bool) (now : Nat) (st : DetectorState)
    (Hall : ∀ e ∈ hiddenQuests, e.id = q.id → e.repeatable = false)
    (Hcnt : hiddenQuests.countP (fun e => e.id == q.id) ≤ 1) :
    (q.id ∈ st.triggered → (checkTriggers pred now st).1.count q.id = 0) ∧
    (checkTriggers pred now st).1.count q.id ≤ 1 ∧
    (1 ≤ (checkTriggers pred now st).1.count q.id →
      q.id ∈ (checkTriggers pred now st).2.triggered) ∧
    (q.id ∈ st.triggered → q.id ∈ (checkTriggers pred now st).2.triggered) ∧
    (q.id ∈ (checkTriggers pred now st).2.triggered →
      q.id ∈ st.triggered ∨ q.id ∈ (checkTriggers pred now st).1) :=
  checkTriggersAux_fireOnce q pred now hiddenQuests st Hall Hcnt

theorem runDetector_fireOnce (q : HiddenQuestDef)
    (Hall : ∀ e ∈ hiddenQuests, e.id = q.id → e.repeatable = false)
    (Hcnt : hiddenQuests.countP (fun e => e.id == q.id) ≤ 1) :
    ∀ (calls : List ((String → Bool) × Nat)) (st : DetectorState),
      (q.id ∈ st.triggered → (runDetector st calls).1.count q.id = 0) ∧
      (runDetector st calls).1.count q.id ≤ 1 := by
  intro calls
  induction calls with
  | nil =>
    intro st
    exact ⟨fun _ => rfl, by simp [runDetector]⟩
  | cons c rest ih =>
    intro st
    have h1 := checkTriggers_fireOnce q c.1 c.2 st Hall Hcnt
    have hrun : runDetector st (c :: rest) =
        ((checkTriggers c.1 c.2 st).1 ++ (runDetector (checkTriggers c.1 c.2 st).2 rest).1,
          (runDetector (checkTriggers c.1 c.2 st).2 rest).2) := rfl
    have ih2 := ih (checkTriggers c.1 c.2 st).2
    constructor
    · intro hin
      rw [hrun]
      simp only [List.count_append]
      rw [h1.1 hin, ih2.1 (h1.2.2.2.1 hin)]
    · rw [hrun]
      simp only [List.count_append]
      by_cases hin : q.id ∈ st.triggered
      · rw [h1.1 hin, ih2.1 (h1.2.2.2.1 hin)]
        omega
      · have hc1 : (checkTriggers c.1 c.2 st).1.count q.id ≤ 1 := h1.2.1
        rcases Nat.lt_or_ge ((checkTriggers c.1 c.2 st).1.count q.id) 1 with hlt | hge
        · have hc0 : (checkTriggers c.1 c.2 st).1.count q.id = 0 := by omega
          have hnotin2 : q.id ∉ (checkTriggers c.1 c.2 st).2.triggered := by
            intro habs
            rcases h1.2.2.2.2 habs with h | h
            · exact hin h
            · have := List.count_pos_iff.mpr h
              omega
          rw [hc0]
          have := ih2.2
          omega
        · have hintrig : q.id ∈ (checkTriggers c.1 c.2 st).2.triggered := h1.2.2.1 hge
          rw [ih2.1 hintrig]
          omega

/-- C6: a non-repeatable (fire-once) hidden-quest definition appears in the
union of all `check_triggers` return sets at most once, across any sequence
of calls with arbitrary predicate valuations and clocks: its first firing
puts it in `_triggered`, and the skip at the top of the loop then excludes
it forever. -/
theorem fire_once_trigger_fires_at_most_once (q : HiddenQuestDef)
    (hq : q ∈ hiddenQuests) (hrep : q.repeatable = false)
    (calls : List ((String → Bool) × Nat)) :
    (runDetector initDetectorState calls).1.count q.id ≤ 1 := by
  have hnodup : (hiddenQuests.map (fun e => e.id)).Nodup := by decide
  have Hall : ∀ e ∈ hiddenQuests, e.id = q.id → e.repeatable = false := by
    intro e he hid
    have : e = q := List.inj_on_of_nodup_map hnodup he hq hid
    rw [this]
    exact hrep
  have Hcnt : hiddenQuests.countP (fun e => e.id == q.id) ≤ 1 := by
    have h1 : hiddenQuests.countP (fun e => e.id == q.id) =
        (hiddenQuests.map (fun e => e.id)).count q.id := by
      rw [List.count, List.countP_map]
      rfl
    rw [h1]
    exact List.nodup_iff_count_le_one.mp hnodup q.id
  exact (runDetector_fireOnce q Hall Hcnt calls initDetectorState).2

/-- C6 witness: `first_blood` against two calls whose predicates all hold. -/
theorem fire_once_trigger_fires_at_most_once_witness :
    (runDetector initDetectorState alwaysTrueCalls).1.count firstBloodDef.id ≤ 1 :=
  fire_once_trigger_fires_at_most_once firstBloodDef (by decide) rfl alwaysTrueCalls

theorem applyBuff_ok (p : Player) (buff : ActiveBuff) (hp : playerOk p)
    (hb : ∀ m, buff.expMultiplier = some m → 0 ≤ m) : playerOk (applyBuff p buff) := by
  obtain ⟨hst, hexp, hmult⟩ := hp
  refine ⟨applyDeltas_range _ _ hst, hexp, ?_⟩
  intro b hbmem
  rw [applyBuff_buffs] at hbmem
  rcases List.mem_append.mp hbmem with hkept | hnew
  · exact hmult b (List.mem_of_mem_filter hkept)
  · rw [List.mem_singleton.mp hnew]
    exact hb

theorem activateBuff_ok (p : Player) (buffId : String) (hp : playerOk p) :
    playerOk (activateBuff p buffId) := by
  unfold activateBuff
  cases hfind : buffDefinitions.find? (fun d => d.id == buffId) with
  | none => exact hp
  | some d =>
    have hd : d ∈ buffDefinitions := List.mem_of_find?_eq_some hfind
    simp only []
    split_ifs with h
    · exact hp
    · exact applyBuff_ok p _ hp (catalogMults_nonneg d hd)

theorem removeBuff_ok (p : Player) (buffId : String) (hp : playerOk p) :
    playerOk (removeBuff p buffId) := by
  obtain ⟨hst, hexp, hmult⟩ := hp
  have hkept : buffMultsOk (p.activeBuffs.filter (fun b => b.id != buffId)) :=
    fun b hb => hmult b (List.mem_of_mem_filter hb)
  unfold removeBuff
  cases hlast : (p.activeBuffs.filter (fun b => b.id == buffId)).getLast? with
  | none => exact ⟨hst, hexp, hkept⟩
  | some removed =>
    simp only []
    refine ⟨?_, hexp, hkept⟩
    rw [removeBuff_negFold]
    exact applyDeltas_range _ _ hst

theorem checkDailyCompletion_ok (st : EngineState) (newDay completedToday : Bool)
    (hp : playerOk st.player) :
    playerOk (checkDailyCompletion st newDay completedToday).player := by
  obtain ⟨hst, hexp, hmult⟩ := hp
  unfold checkDailyCompletion
  split_ifs with h1 h2 h3
  · exact ⟨hst, hexp, hmult⟩
  · exact ⟨hst, hexp, hmult⟩
  · exact ⟨hst, hexp, hmult⟩
  · cases hpen : findPenalty (st.consecutiveFails + 1) with
    | none =>
      simp only []
      rw [hpen]
      exact ⟨hst, hexp, hmult⟩
    | some pen =>
      simp only []
      rw [hpen]
      refine ⟨applyDeltas_range _ _ hst, ?_, hmult⟩
      simp only []
      split_ifs with h3
      · omega
      · exact hexp

theorem stepEngine_ok (st : EngineState) (op : EngineOp) (hp : playerOk st.player) :
    playerOk (stepEngine st op).player := by
  cases op with
  | gainExp amount => exact gainExp_ok _ _ hp (Int.natCast_nonneg amount)
  | activateBuff buffId => exact activateBuff_ok _ _ hp
  | deactivateBuff buffId => exact removeBuff_ok _ _ hp
  | checkDaily newDay completedToday => exact checkDailyCompletion_ok _ _ _ hp

theorem runEngine_ok (ops : List EngineOp) (st : EngineState) (hp : playerOk st.player) :
    playerOk (runEngine st ops).player := by
  induction ops generalizing st with
  | nil => exact hp
  | cons op rest ih => exact ih (stepEngine st op) (stepEngine_ok st op hp)

/-- C3: after every sequence of engine operations — experience gains (with
their level-up cascades), buff activation/deactivation, and daily penalty
checks — starting from the boot state, every one of the five stat gauges
lies in [0, 100] and the player's exp is non-negative.  Since the sequence
is arbitrary, this covers every reachable engine state. -/
theorem engine_ops_preserve_gauges_and_exp (ops : List EngineOp) :
    statsInRange (runEngine initEngineState ops).player.stats ∧
      0 ≤ (runEngine initEngineState ops).player.exp := by
  have h := runEngine_ok ops initEngineState
    ⟨fun s => by cases s <;> exact ⟨by decide, by decide⟩, by decide, fun b hb => by cases hb⟩
  exact ⟨h.1, h.2.1⟩

/-! ## C8 — the creative pattern rule -/

theorem creativeWindow_categories : categoriesOf creativeWindow = ["writing"] := rfl

theorem creativeWindow_avg : avgFocusOf creativeWindow = 1/2 := by
  unfold avgFocusOf creativeWindow
  simp only [List.filter_cons, List.filter_nil, decide_eq_true_eq]
  norm_num

/-- C8 (amended): `detect` returns `"creative"` only when the window holds
at least 2 snapshot records (the global gate) and at least 50% of the
categorised recent categories are writing/creative.  Unlike the learning
rule, the creative branch carries no `len(categories) >= 2` conjunct, so
fewer than 2 categorised records do not prevent it (see the
counterexample). -/
theorem detect_creative_half_ratio (snapshots : List Snapshot) (windowTimes : List Int)
    (now : Int) (hour : Nat)
    (h : detect snapshots windowTimes now hour = "creative") :
    2 ≤ snapshots.length ∧
      ((categoriesOf snapshots).length : ℚ) * (1/2) ≤
        (((categoriesOf snapshots).count "writing" +
          (categoriesOf snapshots).count "creative" : ℕ) : ℚ) := by
  simp only [detect] at h
  split_ifs at h with h1 h2 h3 h4 h5 h6 h7
  all_goals simp_all

/-- C8 counterexample: a two-snapshot window with exactly one categorised
record (writing) — the detector returns `"creative"` although fewer than 2
records carry categories, refuting the ≥2-categorised-records reading. -/
theorem detect_creative_single_category_counterexample :
    detect creativeWindow [] 0 12 = "creative" ∧
      (categoriesOf creativeWindow).length = 1 := by
  refine ⟨?_, rfl⟩
  simp only [detect, creativeWindow_categories, creativeWindow_avg]
  norm_num
  have hlen : creativeWindow.length = 2 := rfl
  have hcc : List.count "creative" ["writing"] = 0 := rfl
  rw [hlen, hcc]
  norm_num

/-- C8 witness: the amended characterisation at the single-categorised
creative window. -/
theorem detect_creative_half_ratio_witness :
    2 ≤ creativeWindow.length ∧
      ((categoriesOf creativeWindow).length : ℚ) * (1/2) ≤
        (((categoriesOf creativeWindow).count "writing" +
          (categoriesOf creativeWindow).count "creative" : ℕ) : ℚ) :=
  detect_creative_half_ratio creativeWindow [] 0 12 (by
    simp only [detect, creativeWindow_categories, creativeWindow_avg]
    norm_num
    have hlen : creativeWindow.length = 2 := rfl
    have hcc : List.count "creative" ["writing"] = 0 := rfl
    rw [hlen, hcc]
    norm_num)

/-! ## C9 — daily-quest generation -/

theorem saveQuest_self_mem (db : List Quest) (q : Quest) : q ∈ saveQuest db q := by
  unfold saveQuest
  split_ifs with h
  · obtain ⟨r, hr, hid⟩ := List.any_eq_true.mp h
    exact List.mem_map.mpr ⟨r, hr, if_pos hid⟩
  · exact List.mem_append_right _ (List.mem_singleton_self q)

theorem bang_isEmpty_iff (l : List Quest) : (!l.isEmpty) = true ↔ l ≠ [] := by
  cases l <;> simp

theorem isTodayDaily_newId (today suffix title : String) (dif : QuestDifficulty)
    (reward : Int) (dl : Option PyDateTime) :
    isTodayDaily today
      { id := "daily_" ++ today ++ "_" ++ suffix, qtype := QuestType.daily, title := title,
        difficulty := dif, status := QuestStatus.active, expReward := reward,
        deadline := dl, source := "daily" } = true := by
  unfold isTodayDaily
  simp only [beq_self_eq_true, Bool.true_and]
  show ("daily_" ++ today).data.isPrefixOf
    ((("daily_" ++ today).data ++ "_".data) ++ suffix.data) = true
  rw [List.append_assoc, List.isPrefixOf_iff_prefix]
  exact List.prefix_append _ _

theorem newDailyQuests_eq (now : PyDateTime) (fresh : Nat → String) :
    newDailyQuests now fresh =
      [ { id := "daily_" ++ now.ymd ++ "_" ++ fresh 0, qtype := QuestType.daily,
          title := "晨间训练", difficulty := QuestDifficulty.D, status := QuestStatus.active,
          expReward := 20, deadline := some (endOfDay now), source := "daily" },
        { id := "daily_" ++ now.ymd ++ "_" ++ fresh 1, qtype := QuestType.daily,
          title := "知识汲取", difficulty := QuestDifficulty.D, status := QuestStatus.active,
          expReward := 20, deadline := some (endOfDay now), source := "daily" },
        { id := "daily_" ++ now.ymd ++ "_" ++ fresh 2, qtype := QuestType.daily,
          title := "专注时刻", difficulty := QuestDifficulty.C, status := QuestStatus.active,
          expReward := 30, deadline := some (endOfDay now), source := "daily" } ] := rfl

theorem newDailyQuests_spec (now : PyDateTime) (fresh : Nat → String) :
    ∀ q ∈ newDailyQuests now fresh,
      q.qtype = QuestType.daily ∧ q.status = QuestStatus.active ∧
      q.deadline = some (endOfDay now) ∧ isTodayDaily now.ymd q = true := by
  intro q hq
  rw [newDailyQuests_eq] at hq
  simp only [List.mem_cons, List.not_mem_nil, or_false] at hq
  rcases hq with rfl | rfl | rfl <;>
    exact ⟨rfl, rfl, rfl, isTodayDaily_newId _ _ _ _ _ _⟩

theorem genDaily_existing (now : PyDateTime) (fresh : Nat → String) (db : List Quest)
    (h : (getActiveQuests db).filter (isTodayDaily now.ymd) ≠ []) :
    generateDailyQuests now fresh db =
      ((getActiveQuests db).filter (isTodayDaily now.ymd), db) := by
  unfold generateDailyQuests
  rw [if_pos ((bang_isEmpty_iff _).mpr h)]

theorem genDaily_fresh (now : PyDateTime) (fresh : Nat → String) (db : List Quest)
    (h : (getActiveQuests db).filter (isTodayDaily now.ymd) = []) :
    generateDailyQuests now fresh db =
      (newDailyQuests now fresh, (newDailyQuests now fresh).foldl saveQuest db) := by
  unfold generateDailyQuests
  rw [if_neg]
  simp [h]

end SoloLeveling
namespace SoloLeveling

theorem generated_db_has_today_daily (now : PyDateTime) (fresh : Nat → String)
    (db : List Quest) :
    (getActiveQuests ((newDailyQuests now fresh).foldl saveQuest db)).filter
      (isTodayDaily now.ymd) ≠ [] := by
  have hmem : thirdDailyQuest now fresh ∈ (newDailyQuests now fresh).foldl saveQuest db := by
    rw [newDailyQuests_eq]
    exact saveQuest_self_mem _ _
  have hact : thirdDailyQuest now fresh ∈
      getActiveQuests ((newDailyQuests now fresh).foldl saveQuest db) :=
    List.mem_filter.mpr ⟨hmem, rfl⟩
  exact List.ne_nil_of_mem
    (List.mem_filter.mpr ⟨hact, isTodayDaily_newId _ _ _ _ _ _⟩)

/-- C9 (amended): `generate_daily_quests` is idempotent per calendar day
over the pending/active set — a repeated same-day call never changes the
quest table; when today's daily quests exist in pending/active status the
call returns exactly those rows and leaves the table alone; when none are
pending/active (even if today's dailies exist in a terminal status, see
the counterexample) it instantiates the three-template set, active, with
a same-day 23:59:59 deadline and today's id stem. -/
theorem generate_daily_idempotent_on_active_set (now : PyDateTime)
    (fresh fresh2 : Nat → String) (db : List Quest) :
    ((generateDailyQuests now fresh2 (generateDailyQuests now fresh db).2).2 =
       (generateDailyQuests now fresh db).2) ∧
    ((getActiveQuests db).filter (isTodayDaily now.ymd) ≠ [] →
       generateDailyQuests now fresh db =
         ((getActiveQuests db).filter (isTodayDaily now.ymd), db)) ∧
    ((getActiveQuests db).filter (isTodayDaily now.ymd) = [] →
       (generateDailyQuests now fresh db).1.length = 3 ∧
       ∀ q ∈ (generateDailyQuests now fresh db).1,
         q.qtype = QuestType.daily ∧ q.status = QuestStatus.active ∧
         q.deadline = some (endOfDay now) ∧ isTodayDaily now.ymd q = true) := by
  by_cases hex : (getActiveQuests db).filter (isTodayDaily now.ymd) = []
  · have hgen := genDaily_fresh now fresh db hex
    refine ⟨?_, fun h => (h hex).elim, fun _ => ?_⟩
    · rw [hgen]
      rw [genDaily_existing now fresh2 _ (generated_db_has_today_daily now fresh db)]
    · rw [hgen]
      exact ⟨rfl, newDailyQuests_spec now fresh⟩
  · have hgen := genDaily_existing now fresh db hex
    refine ⟨?_, fun _ => hgen, fun h => (hex h).elim⟩
    rw [hgen]
    rw [genDaily_existing now fresh2 db hex]

/-- C9 counterexample: today's daily quest exists but is completed —
`generate_daily_quests` consults only pending/active rows, so it creates a
fresh set and changes the table, refuting the "in any status" reading. -/
theorem generate_daily_terminal_status_counterexample :
    completedDailyQuest.status = QuestStatus.completed ∧
    isTodayDaily sampleNow.ymd completedDailyQuest = true ∧
    (generateDailyQuests sampleNow sampleFresh [completedDailyQuest]).2 ≠
      [completedDailyQuest] := by
  refine ⟨rfl, by decide, ?_⟩
  decide

/-- C9 witness: generation from an empty table followed by a same-day
repeat call — three quests created, second call changes nothing. -/
theorem generate_daily_idempotent_on_active_set_witness :
    ((generateDailyQuests sampleNow sampleFresh2
        (generateDailyQuests sampleNow sampleFresh ([] : List Quest)).2).2 =
      (generateDailyQuests sampleNow sampleFresh ([] : List Quest)).2) ∧
    (generateDailyQuests sampleNow sampleFresh ([] : List Quest)).1.length = 3 :=
  ⟨(generate_daily_idempotent_on_active_set sampleNow sampleFresh sampleFresh2 []).1,
    ((generate_daily_idempotent_on_active_set sampleNow sampleFresh sampleFresh2 []).2.2
      rfl).1⟩

end SoloLeveling
